import Mathlib

/-!
Shallow embedding of `src/ptb/train/train.py` (functions `train_classifier` and
`one_epoch`, including the nested `compute_loss` and `closure`), together with
proofs about the metric accounting of the epoch runner, the robust-loss
computation, the learning-rate schedule, the checkpoint logic and the
orchestrator's epoch loop.

Scalars are modelled as rationals (`ℚ`); a float that may be NaN is modelled by
`EVal`.  External collaborators (the network forward pass, `CrossEntropyLoss`,
`propagate_bounds`, `compute_accuracy`) are opaque function parameters.
-/

namespace Ptb

/-- Modelled from the spec: `AverageMeter` lives in `ptb/train/utils.py`, which is
not among the sources.  Spec §4.1 gives its contract: `update(value, weight)` adds
`value * weight` to the running sum and `weight` to the running count, and the
average is `sum / count`, taken to be zero (without raising) when the count is
zero.  The display-format string is kept alongside the name. -/
structure AverageMeter where
  name : String
  fmt : String
  sum : ℚ
  count : ℚ
deriving Repr, DecidableEq

/-- A fresh meter, as built at the top of `one_epoch` (train.py lines 154-158). -/
def AverageMeter.mk0 (name fmt : String) : AverageMeter :=
  ⟨name, fmt, 0, 0⟩

/-- `update(value, weight)` of the meter (spec §4.1). -/
def AverageMeter.update (m : AverageMeter) (v w : ℚ) : AverageMeter :=
  { m with sum := m.sum + v * w, count := m.count + w }

/-- The running average of the meter: `sum / count`, zero when the count is zero
(spec §4.1: undefined/zero when count = 0, must not raise). -/
def AverageMeter.avg (m : AverageMeter) : ℚ :=
  if m.count = 0 then 0 else m.sum / m.count

/-- One observed batch of an epoch pass, as seen by the metric accounting of
`one_epoch` (train.py lines 195-221).  The numeric results of the loss and
accuracy computations are opaque inputs here because the optimizer may mutate
the network parameters between closure invocations: `lossAt j` is the value
`float(loss)` produced by the `j`-th invocation of the closure on this batch
(so `lossAt 0` is the first-invocation loss), `acc1`/`acc5` are the
`compute_accuracy` results on the first-invocation output, `n` is
`inputs.size(0)`, and `dataTime`/`batchTime` are the wall-clock durations the
runner measures for this batch. -/
structure EpochBatch where
  n : ℕ
  lossAt : ℕ → ℚ
  acc1 : ℚ
  acc5 : ℚ
  dataTime : ℚ
  batchTime : ℚ

/-- The five meters created by `one_epoch` (train.py lines 154-158). -/
structure EpochMeters where
  batch_time : AverageMeter
  data_time : AverageMeter
  losses : AverageMeter
  top1 : AverageMeter
  top5 : AverageMeter
deriving Repr, DecidableEq

/-- The meters as freshly constructed at the start of `one_epoch`. -/
def epochInit : EpochMeters :=
  ⟨AverageMeter.mk0 "Time/BatchTotal" ":6.3f",
   AverageMeter.mk0 "Time/BatchData" ":6.3f",
   AverageMeter.mk0 "Loss" ":.4e",
   AverageMeter.mk0 "Acc@1" ":6.2f",
   AverageMeter.mk0 "Acc@5" ":6.2f"⟩

/-- The metric-recording block of `compute_loss` (train.py lines 177-184), run
only when `update_metrics` is true: `losses.update(float(loss), n)`,
`top1.update(float(acc1), n)`, `top5.update(float(acc5), n)` with
`n = inputs.size(0)`. -/
def recordMetrics (b : EpochBatch) (ms : EpochMeters) : EpochMeters :=
  { ms with
    losses := ms.losses.update (b.lossAt 0) (b.n : ℚ),
    top1 := ms.top1.update b.acc1 (b.n : ℚ),
    top5 := ms.top5.update b.acc5 (b.n : ℚ) }

/-- One invocation of the per-batch `closure` (train.py lines 204-212): it calls
`compute_loss(inputs, targets, first_time)` — whose metric block runs only when
`first_time` is still true — and then sets `first_time` to false.  The state is
the meters paired with the `first_time` flag. -/
def invokeClosure (b : EpochBatch) (st : EpochMeters × Bool) : EpochMeters × Bool :=
  (if st.2 then recordMetrics b st.1 else st.1, false)

/-- `optimizer.step(closure)` modelled as `k` successive invocations of the
closure on this batch (the optimizer may re-invoke the closure, e.g. a
line-search method; plain SGD invokes it once). -/
def stepClosure (b : EpochBatch) : ℕ → EpochMeters × Bool → EpochMeters × Bool
  | 0, st => st
  | j + 1, st => stepClosure b j (invokeClosure b st)

/-- The body of the batch loop of `one_epoch` (train.py lines 195-221) for the
batch with index `i`: record data-loading time, reset `first_time := True`,
either `optimizer.step(closure)` (training, with `k i` closure invocations) or a
single direct `closure()` call (evaluation), then record total batch time. -/
def oneBatch (optimizer : Option (ℕ → ℕ)) (i : ℕ) (b : EpochBatch)
    (ms : EpochMeters) : EpochMeters :=
  let ms1 := { ms with data_time := ms.data_time.update b.dataTime 1 }
  let ms2 :=
    match optimizer with
    | some k => (stepClosure b (k i) (ms1, true)).1
    | none => (invokeClosure b (ms1, true)).1
  { ms2 with batch_time := ms2.batch_time.update b.batchTime 1 }

/-- The batch loop of `one_epoch`, threading the meters through the batches in
order (`i` is the index of the first remaining batch). -/
def epochLoop (optimizer : Option (ℕ → ℕ)) :
    ℕ → List EpochBatch → EpochMeters → EpochMeters
  | _, [], ms => ms
  | i, b :: rest, ms => epochLoop optimizer (i + 1) rest (oneBatch optimizer i b ms)

/-- `one_epoch` (train.py lines 151-223), restricted to its metric accounting:
runs the batch loop from fresh meters and returns the dictionary
`{x.name: x for x in (batch_time, data_time, losses, top1, top5)}`, modelled as
an association list in the source's construction order.  `optimizer = none`
is an evaluation pass (the closure is invoked exactly once per batch),
`optimizer = some k` is a training pass in which `optimizer.step` invokes the
closure `k i` times on batch `i`. -/
def one_epoch (optimizer : Option (ℕ → ℕ)) (batches : List EpochBatch) :
    List (String × AverageMeter) :=
  let ms := epochLoop optimizer 0 batches epochInit
  [(ms.batch_time.name, ms.batch_time), (ms.data_time.name, ms.data_time),
   (ms.losses.name, ms.losses), (ms.top1.name, ms.top1), (ms.top5.name, ms.top5)]

/-- Folding one meter update per batch, value `f b` with weight `w b`: the
reference "each batch counted exactly once" semantics for a single meter. -/
def meterFold (f w : EpochBatch → ℚ) (m0 : AverageMeter)
    (batches : List EpochBatch) : AverageMeter :=
  batches.foldl (fun m b => m.update (f b) (w b)) m0

/-! ### The per-batch loss value (`compute_loss`, train.py lines 164-175)

A batch of logits is a list of rows (one row of class scores per example).
`CrossEntropyLoss` and `propagate_bounds` are opaque: the former is a function
parameter `criterion`, and the latter's result enters only through its
`.offset` tensor, carried in `BatchTensors`. -/

/-- One example's row of per-class logits. -/
abbrev Row := List ℚ

/-- `row.abs().max()` with `torch`-style reduction: the maximum of the absolute
values of the row's entries (zero for an empty row). -/
def maxAbs (r : Row) : ℚ :=
  (r.map (fun x => |x|)).foldr max 0

/-- Walks the zipped (logit, offset) pairs with the running class index `i`,
picking the lower bound at the true class and the upper bound elsewhere. -/
def bounds_logits_go (target : ℕ) : ℕ → List (ℚ × ℚ) → Row
  | _, [] => []
  | i, p :: rest =>
    (if i = target then p.1 - p.2 else p.1 + p.2) :: bounds_logits_go target (i + 1) rest

/-- Modelled from the spec: `bounds_logits` is defined in `ptb/train/utils.py`,
which is not among the sources.  Spec §4.3(b): for the true class use the
*lower* bound and for every other class the *upper* bound of the propagated
logit interval; the source passes it `(output, bounds.offset, targets)`, so the
interval around logit `i` is `[output_i - offset_i, output_i + offset_i]`. -/
def bounds_logits (output offset : Row) (target : ℕ) : Row :=
  bounds_logits_go target 0 (List.zip output offset)

/-- The tensors entering one `compute_loss` call: the network output rows
(`output = net(inputs)`), the per-logit bound offsets
(`propagate_bounds(net, inputs, epsilon).offset`), and the true labels. -/
structure BatchTensors where
  output : List Row
  offset : List Row
  targets : List ℕ

/-- `logits = bounds_logits(output, bounds.offset, targets)` applied row by
row across the batch (train.py line 172). -/
def marginLogits (bt : BatchTensors) : List Row :=
  (List.zip (List.zip bt.output bt.offset) bt.targets).map fun p =>
    bounds_logits p.1.1 p.1.2 p.2

/-- Row-wise scaling `logits / (temperature * max_abs_logits)` (train.py lines
173-174): every entry of the row is divided by `temperature` times the maximum
absolute value of that row. -/
def scaleRow (temperature : ℚ) (r : Row) : Row :=
  r.map fun x => x / (temperature * maxAbs r)

/-- The loss value computed by `compute_loss` (train.py lines 164-175):
`loss = criterion(output, targets)`, and when `epsilon > 0 and factor > 0`
additionally `loss += factor * criterion(scaled_margin_logits, targets)`.
`criterion` (`nn.CrossEntropyLoss`) is opaque. -/
def compute_loss (criterion : List Row → List ℕ → ℚ)
    (epsilon factor temperature : ℚ) (bt : BatchTensors) : ℚ :=
  let loss := criterion bt.output bt.targets
  if 0 < epsilon ∧ 0 < factor then
    loss + factor * criterion ((marginLogits bt).map (scaleRow temperature)) bt.targets
  else
    loss

/-! ### Learning-rate schedule (train.py lines 28 and 104-110) -/

/-- `get_lr = lambda epoch: learning_rate * (0.1 ** (epoch // 30))`
(train.py line 28). -/
def get_lr (learning_rate : ℚ) (epoch : ℕ) : ℚ :=
  learning_rate * (1 / 10) ^ (epoch / 30)

/-- The learning rate sitting in the optimizer's parameter groups during epoch
`e` of a run started from epoch 0 (train.py lines 104-110): `lr` is recomputed
and written into the optimizer whenever `epoch % 30 == 0` (epoch 0 included)
and otherwise keeps its previous value. -/
def optimizer_lr (learning_rate : ℚ) : ℕ → ℚ
  | 0 => get_lr learning_rate 0
  | e + 1 =>
    if (e + 1) % 30 = 0 then get_lr learning_rate (e + 1)
    else optimizer_lr learning_rate e

/-! ### Checkpoint saving and resuming (train.py lines 72-83 and 132-142)

Model parameters are an association list from parameter names to opaque tensor
values of a type `P`; the serialized optimizer state is an opaque value of a
type `O`. -/

/-- The checkpoint record written by `torch.save` (train.py lines 137-142):
fields `epoch`, `state_dict`, `best_acc1`, `optimizer`. -/
structure CheckpointState (P O : Type) where
  epoch : ℕ
  state_dict : List (String × P)
  best_acc1 : ℚ
  optimizer : O
deriving Repr, DecidableEq

/-- Building the record saved at the end of epoch `epoch` (train.py lines
136-142): the stored epoch is `epoch + 1`, and the stored `state_dict` zips the
parameter names captured at model creation (`keys`, line 55) with the *current*
values of `net.state_dict()`. -/
def save_checkpoint {P O : Type} (keys : List String) (net_sd : List (String × P))
    (epoch : ℕ) (best_acc1 : ℚ) (opt_sd : O) : CheckpointState P O :=
  ⟨epoch + 1, List.zip keys (net_sd.map Prod.snd), best_acc1, opt_sd⟩

/-- The outcome of the resume block: the starting epoch, the best metric, the
model's parameter dictionary, the optimizer state, and the console messages
printed, in order. -/
structure ResumeResult (P O : Type) where
  start_epoch : ℕ
  best_acc1 : ℚ
  net_sd : List (String × P)
  opt_sd : O
  messages : List String
deriving Repr, DecidableEq

/-- The resume block of `train_classifier` (train.py lines 72-83).  `resume` is
the optional requested path, `fs` maps a path to the checkpoint stored there
(if any; `resume.is_file()` is `fs p ≠ none`), and `net_sd`/`opt_sd` are the
freshly constructed model and optimizer states.  With no resume requested, or
with a requested path holding no file, training starts fresh from epoch 0 with
best metric 0 and the fresh states; the missing-file case additionally prints
a message.  A found checkpoint populates everything from the record. -/
def resume_init {P O : Type} (resume : Option String)
    (fs : String → Option (CheckpointState P O))
    (net_sd : List (String × P)) (opt_sd : O) : ResumeResult P O :=
  match resume with
  | none => ⟨0, 0, net_sd, opt_sd, []⟩
  | some p =>
    match fs p with
    | some st =>
      ⟨st.epoch, st.best_acc1, st.state_dict, st.optimizer,
       ["=> loading checkpoint", "=> loaded checkpoint"]⟩
    | none => ⟨0, 0, net_sd, opt_sd, ["=> no checkpoint found"]⟩

/-! ### The orchestrator's epoch loop (train.py lines 104-148)

The loop is modelled as a trace-producing state machine.  The results of the
training and validation passes of epoch `e` are opaque inputs (`EpochData`):
the training pass's average loss (a float that may be NaN) and the validation
pass's `Acc@1` average.  `torch.save` may fail (unwritable path); the source
wraps it in no exception handler, so a failing save is modelled as a crash
that ends the run on the spot. -/

/-- A float scalar that may be NaN.  The source detects NaN with the float
idiom `train_loss != train_loss` (train.py line 144), which is `isNaN` here
(comparison is modelled on the meter's average value, per spec §4.6's
divergence transition on the training-pass average loss). -/
inductive EVal where
  | nan : EVal
  | val : ℚ → EVal
deriving Repr, DecidableEq

/-- Whether the value is NaN. -/
def EVal.isNaN : EVal → Bool
  | .nan => true
  | .val _ => false

/-- The pass results of one epoch, as read by the orchestrator: the training
pass's average loss and the validation pass's average top-1 accuracy. -/
structure EpochData where
  trainLoss : EVal
  valAcc : ℚ
deriving Repr, DecidableEq

/-- Orchestrator configuration: whether a log directory and a checkpoint path
are configured. -/
structure OrchConfig where
  logDir : Bool
  ckptPath : Bool
deriving Repr, DecidableEq

/-- Observable actions of the epoch loop, each tagged with its epoch index. -/
inductive Event where
  | trainPass : ℕ → Event
  | valPass : ℕ → Event
  | report : ℕ → Event
  | logScalars : ℕ → Event
  | saveCkpt : ℕ → ℚ → Event
  | nanAbort : ℕ → Event
deriving Repr, DecidableEq

/-- The epoch index an event is tagged with. -/
def Event.idx : Event → ℕ
  | .trainPass e => e
  | .valPass e => e
  | .report e => e
  | .logScalars e => e
  | .saveCkpt e _ => e
  | .nanAbort e => e

/-- The tail of the epoch body (train.py lines 144-146): after metrics and
checkpointing, `if train_loss != train_loss: print(...); break`.  Returns the
events, the best metric, the crash flag (false here) and the break flag. -/
def finishEpoch (evs : List Event) (d : EpochData) (e : ℕ) (best : ℚ) :
    List Event × ℚ × Bool × Bool :=
  if d.trainLoss.isNaN then (evs ++ [Event.nanAbort e], best, false, true)
  else (evs, best, false, false)

/-- One iteration of the epoch loop of `train_classifier` (train.py lines
105-146), in source order: training pass, validation pass, console report,
scalar logging when a log directory is configured, then — when the validation
`Acc@1` average is `≥ best_acc1` — update `best_acc1` and, when a checkpoint
path is configured, `torch.save`; a failing save (unwritable path, `saveOk =
false`) raises out of the loop (crash flag).  Finally the NaN check.  Returns
`(events, new best_acc1, crashed, broke)`. -/
def epochStep (cfg : OrchConfig) (saveOk : Bool) (d : EpochData) (e : ℕ)
    (best : ℚ) : List Event × ℚ × Bool × Bool :=
  let evs := [Event.trainPass e, Event.valPass e, Event.report e]
      ++ (if cfg.logDir then [Event.logScalars e] else [])
  if best ≤ d.valAcc then
    if cfg.ckptPath then
      if saveOk then finishEpoch (evs ++ [Event.saveCkpt e d.valAcc]) d e d.valAcc
      else (evs, d.valAcc, true, false)
    else finishEpoch evs d e d.valAcc
  else finishEpoch evs d e best

/-- The epoch loop `for epoch in range(start_epoch, epochs)` (train.py lines
105-146), driven by the remaining-epoch count `fuel`: runs `epochStep` at
epoch `e`, stops where the step crashed (uncaught save error) or broke (NaN),
and otherwise continues at `e + 1`.  Returns the concatenated event trace, the
final `best_acc1`, and whether the run crashed. -/
def runLoop (cfg : OrchConfig) (saveOk : ℕ → Bool) (data : ℕ → EpochData) :
    ℕ → ℕ → ℚ → List Event × ℚ × Bool
  | _, 0, best => ([], best, false)
  | e, fuel + 1, best =>
    match epochStep cfg (saveOk e) (data e) e best with
    | (evs, best1, crashed, broke) =>
      if crashed || broke then (evs, best1, crashed)
      else
        match runLoop cfg saveOk data (e + 1) fuel best1 with
        | (rest, bfin, cr) => (evs ++ rest, bfin, cr)

/-- The epoch loop of `train_classifier` run from `start_epoch` up to `epochs`
with initial best metric `best0`. -/
def train_run (cfg : OrchConfig) (saveOk : ℕ → Bool) (data : ℕ → EpochData)
    (epochs start_epoch : ℕ) (best0 : ℚ) : List Event × ℚ × Bool :=
  runLoop cfg saveOk data start_epoch (epochs - start_epoch) best0

/-- The best metric entering the epoch `s + fuel` of a clean run, obtained by
folding the `best_acc1` update of train.py lines 133-134 over the epochs
`s, s+1, …, s+fuel-1`. -/
def bestFrom (data : ℕ → EpochData) : ℕ → ℕ → ℚ → ℚ
  | _, 0, best => best
  | s, fuel + 1, best =>
    bestFrom data (s + 1) fuel (if best ≤ (data s).valAcc then (data s).valAcc else best)

/-! ### Helper lemmas -/

lemma zip_fst_snd {α β : Type} (l : List (α × β)) :
    List.zip (l.map Prod.fst) (l.map Prod.snd) = l := by
  have h := List.zip_unzip l
  rwa [List.unzip_eq_map] at h

lemma le_maxAbs {r : Row} {x : ℚ} (hx : x ∈ r) : |x| ≤ maxAbs r := by
  induction r with
  | nil => cases hx
  | cons a l ih =>
    simp only [maxAbs, List.map_cons, List.foldr_cons] at *
    rcases List.mem_cons.mp hx with h | h
    · subst h; exact le_max_left _ _
    · exact le_trans (ih h) (le_max_right _ _)

lemma maxAbs_pos {r : Row} {x : ℚ} (hx : x ∈ r) (hx0 : x ≠ 0) : 0 < maxAbs r :=
  lt_of_lt_of_le (abs_pos.mpr hx0) (le_maxAbs hx)

lemma stepClosure_false (b : EpochBatch) :
    ∀ (j : ℕ) (ms : EpochMeters), stepClosure b j (ms, false) = (ms, false) := by
  intro j
  induction j with
  | zero => intro ms; rfl
  | succ j ih => intro ms; rw [stepClosure, invokeClosure]; exact ih ms

lemma stepClosure_pos (b : EpochBatch) {j : ℕ} (hj : 1 ≤ j) (ms : EpochMeters) :
    stepClosure b j (ms, true) = (recordMetrics b ms, false) := by
  obtain ⟨j, rfl⟩ : ∃ j0, j = j0 + 1 := ⟨j - 1, by omega⟩
  rw [stepClosure, invokeClosure]
  exact stepClosure_false b j _

lemma oneBatch_some_eq_none (k : ℕ → ℕ) (i : ℕ) (hk : 1 ≤ k i) (b : EpochBatch)
    (ms : EpochMeters) : oneBatch (some k) i b ms = oneBatch none i b ms := by
  simp only [oneBatch, stepClosure_pos b hk, invokeClosure, if_pos]

lemma epochLoop_some_eq_none (k : ℕ → ℕ) (hk : ∀ i, 1 ≤ k i) :
    ∀ (batches : List EpochBatch) (i : ℕ) (ms : EpochMeters),
      epochLoop (some k) i batches ms = epochLoop none i batches ms := by
  intro batches
  induction batches with
  | nil => intro i ms; rfl
  | cons b rest ih =>
    intro i ms
    rw [epochLoop, epochLoop, oneBatch_some_eq_none k i (hk i), ih]

lemma oneBatch_none (i : ℕ) (b : EpochBatch) (ms : EpochMeters) :
    oneBatch none i b ms =
      ⟨ms.batch_time.update b.batchTime 1, ms.data_time.update b.dataTime 1,
       ms.losses.update (b.lossAt 0) (b.n : ℚ), ms.top1.update b.acc1 (b.n : ℚ),
       ms.top5.update b.acc5 (b.n : ℚ)⟩ := by
  simp [oneBatch, invokeClosure, recordMetrics]

lemma epochLoop_none_components :
    ∀ (batches : List EpochBatch) (i : ℕ) (ms : EpochMeters),
      epochLoop none i batches ms =
        ⟨meterFold (fun b => b.batchTime) (fun _ => 1) ms.batch_time batches,
         meterFold (fun b => b.dataTime) (fun _ => 1) ms.data_time batches,
         meterFold (fun b => b.lossAt 0) (fun b => (b.n : ℚ)) ms.losses batches,
         meterFold (fun b => b.acc1) (fun b => (b.n : ℚ)) ms.top1 batches,
         meterFold (fun b => b.acc5) (fun b => (b.n : ℚ)) ms.top5 batches⟩ := by
  intro batches
  induction batches with
  | nil => intro i ms; rfl
  | cons b rest ih =>
    intro i ms
    rw [epochLoop, oneBatch_none, ih]
    rfl

lemma meterFold_name (f w : EpochBatch → ℚ) :
    ∀ (l : List EpochBatch) (m0 : AverageMeter), (meterFold f w m0 l).name = m0.name := by
  intro l
  induction l with
  | nil => intro m0; rfl
  | cons b rest ih => intro m0; exact ih _

lemma one_epoch_none_eq (batches : List EpochBatch) :
    one_epoch none batches =
      [("Time/BatchTotal",
        meterFold (fun b => b.batchTime) (fun _ => 1)
          (AverageMeter.mk0 "Time/BatchTotal" ":6.3f") batches),
       ("Time/BatchData",
        meterFold (fun b => b.dataTime) (fun _ => 1)
          (AverageMeter.mk0 "Time/BatchData" ":6.3f") batches),
       ("Loss",
        meterFold (fun b => b.lossAt 0) (fun b => (b.n : ℚ))
          (AverageMeter.mk0 "Loss" ":.4e") batches),
       ("Acc@1",
        meterFold (fun b => b.acc1) (fun b => (b.n : ℚ))
          (AverageMeter.mk0 "Acc@1" ":6.2f") batches),
       ("Acc@5",
        meterFold (fun b => b.acc5) (fun b => (b.n : ℚ))
          (AverageMeter.mk0 "Acc@5" ":6.2f") batches)] := by
  rw [one_epoch, epochLoop_none_components]
  simp [meterFold_name, AverageMeter.mk0, epochInit]

lemma one_epoch_eq_none (optimizer : Option (ℕ → ℕ))
    (hk : ∀ k ∈ optimizer, ∀ i, 1 ≤ k i) (batches : List EpochBatch) :
    one_epoch optimizer batches = one_epoch none batches := by
  cases optimizer with
  | none => rfl
  | some k =>
    rw [one_epoch, one_epoch, epochLoop_some_eq_none k (hk k rfl)]

lemma meterFold_count (f w : EpochBatch → ℚ) :
    ∀ (l : List EpochBatch) (m0 : AverageMeter),
      (meterFold f w m0 l).count = m0.count + (l.map w).sum := by
  intro l
  induction l with
  | nil => intro m0; simp [meterFold]
  | cons b rest ih =>
    intro m0
    have hcons : meterFold f w m0 (b :: rest)
        = meterFold f w (m0.update (f b) (w b)) rest := rfl
    rw [hcons, ih]
    simp only [AverageMeter.update, List.map_cons, List.sum_cons]
    ring

lemma meterFold_sum (f w : EpochBatch → ℚ) :
    ∀ (l : List EpochBatch) (m0 : AverageMeter),
      (meterFold f w m0 l).sum = m0.sum + (l.map fun b => f b * w b).sum := by
  intro l
  induction l with
  | nil => intro m0; simp [meterFold]
  | cons b rest ih =>
    intro m0
    have hcons : meterFold f w m0 (b :: rest)
        = meterFold f w (m0.update (f b) (w b)) rest := rfl
    rw [hcons, ih]
    simp only [AverageMeter.update, List.map_cons, List.sum_cons]
    ring

lemma meterFold_stats (f w : EpochBatch → ℚ) (nm fmt : String) (l : List EpochBatch)
    (hn : (l.map w).sum ≠ 0) :
    (meterFold f w (AverageMeter.mk0 nm fmt) l).count = (l.map w).sum
    ∧ (meterFold f w (AverageMeter.mk0 nm fmt) l).sum = (l.map fun b => f b * w b).sum
    ∧ (meterFold f w (AverageMeter.mk0 nm fmt) l).avg
        = (l.map fun b => f b * w b).sum / (l.map w).sum := by
  have hc : (meterFold f w (AverageMeter.mk0 nm fmt) l).count = (l.map w).sum := by
    rw [meterFold_count]; simp [AverageMeter.mk0]
  have hs : (meterFold f w (AverageMeter.mk0 nm fmt) l).sum
      = (l.map fun b => f b * w b).sum := by
    rw [meterFold_sum]; simp [AverageMeter.mk0]
  exact ⟨hc, hs, by rw [AverageMeter.avg, hc, hs, if_neg hn]⟩

lemma epochStep_sub (cfg : OrchConfig) (saveOk : Bool) (d : EpochData) (e : ℕ)
    (best : ℚ) :
    (epochStep cfg saveOk d e best).1 ⊆
      [Event.trainPass e, Event.valPass e, Event.report e, Event.logScalars e,
       Event.saveCkpt e d.valAcc, Event.nanAbort e] := by
  unfold epochStep finishEpoch
  split_ifs <;> intro ev hev <;> simp at hev ⊢ <;> tauto

lemma epochStep_idx (cfg : OrchConfig) (saveOk : Bool) (d : EpochData) (e : ℕ)
    (best : ℚ) : ∀ ev ∈ (epochStep cfg saveOk d e best).1, ev.idx = e := by
  intro ev hev
  have h := epochStep_sub cfg saveOk d e best hev
  simp only [List.mem_cons, List.not_mem_nil, or_false] at h
  rcases h with rfl | rfl | rfl | rfl | rfl | rfl <;> rfl

lemma epochStep_mem (cfg : OrchConfig) (saveOk : Bool) (d : EpochData) (e : ℕ)
    (best : ℚ) :
    Event.trainPass e ∈ (epochStep cfg saveOk d e best).1
    ∧ Event.valPass e ∈ (epochStep cfg saveOk d e best).1 := by
  unfold epochStep finishEpoch
  split_ifs <;> simp

lemma epochStep_best (cfg : OrchConfig) (saveOk : Bool) (d : EpochData) (e : ℕ)
    (best : ℚ) :
    (epochStep cfg saveOk d e best).2.1
      = if best ≤ d.valAcc then d.valAcc else best := by
  unfold epochStep finishEpoch
  split_ifs <;> rfl

lemma epochStep_flags (cfg : OrchConfig) (d : EpochData) (e : ℕ) (best : ℚ) :
    (epochStep cfg true d e best).2.2.1 = false
    ∧ (epochStep cfg true d e best).2.2.2 = d.trainLoss.isNaN := by
  unfold epochStep finishEpoch
  split_ifs <;> simp_all

lemma epochStep_nan_mem (cfg : OrchConfig) (d : EpochData) (e : ℕ) (best : ℚ)
    (hn : d.trainLoss.isNaN = true) :
    Event.nanAbort e ∈ (epochStep cfg true d e best).1 := by
  unfold epochStep finishEpoch
  split_ifs <;> simp_all

lemma epochStep_save_iff (cfg : OrchConfig) (d : EpochData) (e : ℕ) (best : ℚ) :
    (∃ b, Event.saveCkpt e b ∈ (epochStep cfg true d e best).1)
      ↔ cfg.ckptPath = true ∧ best ≤ d.valAcc := by
  unfold epochStep finishEpoch
  split_ifs <;> simp_all

lemma epochStep_save_mem (cfg : OrchConfig) (d : EpochData) (e : ℕ) (best : ℚ)
    (hck : cfg.ckptPath = true) (hb : best ≤ d.valAcc) :
    Event.saveCkpt e d.valAcc ∈ (epochStep cfg true d e best).1 := by
  unfold epochStep finishEpoch
  split_ifs <;> simp_all

lemma epochStep_crash (cfg : OrchConfig) (d : EpochData) (e : ℕ) (best : ℚ)
    (hck : cfg.ckptPath = true) (hb : best ≤ d.valAcc) :
    epochStep cfg false d e best
      = ([Event.trainPass e, Event.valPass e, Event.report e]
          ++ (if cfg.logDir then [Event.logScalars e] else []),
         d.valAcc, true, false) := by
  unfold epochStep
  simp [hb, hck]

lemma runLoop_best_mono (cfg : OrchConfig) (saveOk : ℕ → Bool) (data : ℕ → EpochData) :
    ∀ (fuel s : ℕ) (best0 : ℚ), best0 ≤ (runLoop cfg saveOk data s fuel best0).2.1 := by
  intro fuel
  induction fuel with
  | zero => intro s best0; exact le_refl _
  | succ fuel ih =>
    intro s best0
    rcases hstep : epochStep cfg (saveOk s) (data s) s best0 with ⟨evs, best1, crashed, broke⟩
    have hb1 : best0 ≤ best1 := by
      have h : best1 = if best0 ≤ (data s).valAcc then (data s).valAcc else best0 := by
        have h0 := epochStep_best cfg (saveOk s) (data s) s best0
        rw [hstep] at h0
        exact h0
      rcases le_or_lt best0 (data s).valAcc with hle | hlt
      · rw [h, if_pos hle]; exact hle
      · rw [h, if_neg (not_le.mpr hlt)]
    cases hor : crashed || broke with
    | true =>
      have hrun : runLoop cfg saveOk data s (fuel + 1) best0 = (evs, best1, crashed) := by
        rw [runLoop]
        simp [hstep, hor]
      rw [hrun]
      exact hb1
    | false =>
      rcases hrest : runLoop cfg saveOk data (s + 1) fuel best1 with ⟨rest, bfin, cr⟩
      have hrun : runLoop cfg saveOk data s (fuel + 1) best0 = (evs ++ rest, bfin, cr) := by
        rw [runLoop]
        simp [hstep, hor, hrest]
      rw [hrun]
      have h2 := ih (s + 1) best1
      rw [hrest] at h2
      exact le_trans hb1 h2

lemma bestFrom_mono (data : ℕ → EpochData) :
    ∀ (fuel s : ℕ) (best0 : ℚ),
      bestFrom data s fuel best0 ≤ bestFrom data s (fuel + 1) best0 := by
  intro fuel
  induction fuel with
  | zero =>
    intro s best0
    rw [bestFrom, bestFrom, bestFrom]
    split_ifs with h
    · exact h
    · exact le_refl _
  | succ fuel ih =>
    intro s best0
    rw [bestFrom]
    conv_rhs => rw [bestFrom]
    exact ih (s + 1) _

lemma runLoop_best_track (cfg : OrchConfig) (saveOk : ℕ → Bool) (data : ℕ → EpochData)
    (hnan : ∀ j, (data j).trainLoss.isNaN = false) (hsave : ∀ j, saveOk j = true) :
    ∀ (fuel s : ℕ) (best0 : ℚ),
      (runLoop cfg saveOk data s fuel best0).2.1 = bestFrom data s fuel best0 := by
  intro fuel
  induction fuel with
  | zero => intro s best0; rfl
  | succ fuel ih =>
    intro s best0
    rcases hstep : epochStep cfg (saveOk s) (data s) s best0 with ⟨evs, best1, crashed, broke⟩
    have hflags := epochStep_flags cfg (data s) s best0
    rw [← hsave s, hstep] at hflags
    have hcr : crashed = false := hflags.1
    have hbr2 : broke = (data s).trainLoss.isNaN := hflags.2
    have hbr : broke = false := by rw [hbr2, hnan s]
    have hb1 : best1 = if best0 ≤ (data s).valAcc then (data s).valAcc else best0 := by
      have h := epochStep_best cfg (saveOk s) (data s) s best0
      rw [hstep] at h
      exact h
    rcases hrest : runLoop cfg saveOk data (s + 1) fuel best1 with ⟨rest, bfin, cr⟩
    have hrun : runLoop cfg saveOk data s (fuel + 1) best0 = (evs ++ rest, bfin, cr) := by
      rw [runLoop]
      simp [hstep, hcr, hbr, hrest]
    rw [hrun]
    have h2 := ih (s + 1) best1
    rw [hrest] at h2
    rw [bestFrom, ← hb1]
    exact h2

lemma runLoop_nan (cfg : OrchConfig) (saveOk : ℕ → Bool) (data : ℕ → EpochData)
    (hsave : ∀ j, saveOk j = true) (e : ℕ)
    (hnan : (data e).trainLoss.isNaN = true) :
    ∀ (fuel s : ℕ) (best : ℚ), s ≤ e → e < s + fuel →
      (∀ j, s ≤ j → j < e → (data j).trainLoss.isNaN = false) →
      Event.nanAbort e ∈ (runLoop cfg saveOk data s fuel best).1
      ∧ Event.valPass e ∈ (runLoop cfg saveOk data s fuel best).1
      ∧ ∀ j, e < j → Event.trainPass j ∉ (runLoop cfg saveOk data s fuel best).1 := by
  intro fuel
  induction fuel with
  | zero => intro s best hse hlt; omega
  | succ fuel ih =>
    intro s best hse hlt hclean
    rcases hstep : epochStep cfg (saveOk s) (data s) s best with ⟨evs, best1, crashed, broke⟩
    have hflags := epochStep_flags cfg (data s) s best
    rw [← hsave s, hstep] at hflags
    have hcr : crashed = false := hflags.1
    have hbr2 : broke = (data s).trainLoss.isNaN := hflags.2
    rcases eq_or_lt_of_le hse with heq | hslt
    · -- the NaN epoch itself: the step breaks and the loop stops here
      subst heq
      have hbr : broke = true := by rw [hbr2, hnan]
      have hrun : runLoop cfg saveOk data s (fuel + 1) best = (evs, best1, crashed) := by
        rw [runLoop]
        simp [hstep, hbr]
      rw [hrun]
      have hmem := epochStep_mem cfg (saveOk s) (data s) s best
      rw [hstep] at hmem
      have habort : Event.nanAbort s ∈ evs := by
        have h := epochStep_nan_mem cfg (data s) s best hnan
        rw [← hsave s, hstep] at h
        exact h
      refine ⟨habort, hmem.2, ?_⟩
      intro j hj hmem2
      have hidx := epochStep_idx cfg (saveOk s) (data s) s best (Event.trainPass j)
      rw [hstep] at hidx
      have hj2 := hidx hmem2
      simp only [Event.idx] at hj2
      omega
    · -- a pre-NaN epoch: the step neither crashes nor breaks and the loop continues
      have hnn : (data s).trainLoss.isNaN = false := hclean s (le_refl s) hslt
      have hbr : broke = false := by rw [hbr2, hnn]
      rcases hrest : runLoop cfg saveOk data (s + 1) fuel best1 with ⟨rest, bfin, cr⟩
      have hrun : runLoop cfg saveOk data s (fuel + 1) best = (evs ++ rest, bfin, cr) := by
        rw [runLoop]
        simp [hstep, hcr, hbr, hrest]
      rw [hrun]
      have hih := ih (s + 1) best1 (by omega) (by omega)
        (fun j h1 h2 => hclean j (by omega) h2)
      rw [hrest] at hih
      refine ⟨List.mem_append_right _ hih.1, List.mem_append_right _ hih.2.1, ?_⟩
      intro j hj hmem2
      rcases List.mem_append.mp hmem2 with h1 | h1
      · have hidx := epochStep_idx cfg (saveOk s) (data s) s best (Event.trainPass j)
        rw [hstep] at hidx
        have hj2 := hidx h1
        simp only [Event.idx] at hj2
        omega
      · exact hih.2.2 j hj h1

lemma runLoop_save_crash (cfg : OrchConfig) (saveOk : ℕ → Bool) (data : ℕ → EpochData)
    (e : ℕ) (hck : cfg.ckptPath = true) (hse : saveOk e = false)
    (hps : ∀ j < e, saveOk j = true) (hpn : ∀ j < e, (data j).trainLoss.isNaN = false) :
    ∀ (fuel s : ℕ) (best : ℚ), s ≤ e → e < s + fuel →
      bestFrom data s (e - s) best ≤ (data e).valAcc →
      (runLoop cfg saveOk data s fuel best).2.2 = true
      ∧ (∀ b, Event.saveCkpt e b ∉ (runLoop cfg saveOk data s fuel best).1)
      ∧ ∀ j, e < j → Event.trainPass j ∉ (runLoop cfg saveOk data s fuel best).1 := by
  intro fuel
  induction fuel with
  | zero => intro s best hse2 hlt; omega
  | succ fuel ih =>
    intro s best hse2 hlt hatt
    rcases eq_or_lt_of_le hse2 with heq | hslt
    · -- the failing epoch: torch.save raises and the run crashes here
      subst heq
      have h0 : s - s = 0 := by omega
      rw [h0, bestFrom] at hatt
      have hcrash := epochStep_crash cfg (data s) s best hck hatt
      rw [← hse] at hcrash
      have hrun : runLoop cfg saveOk data s (fuel + 1) best
          = ([Event.trainPass s, Event.valPass s, Event.report s]
              ++ (if cfg.logDir then [Event.logScalars s] else []),
             (data s).valAcc, true) := by
        rw [runLoop]
        simp [hcrash]
      rw [hrun]
      refine ⟨rfl, ?_, ?_⟩
      · intro b hmem
        rcases List.mem_append.mp hmem with h1 | h1
        · simp at h1
        · split_ifs at h1 <;> simp_all
      · intro j hj hmem
        rcases List.mem_append.mp hmem with h1 | h1
        · simp at h1
          omega
        · split_ifs at h1 <;> simp_all
    · -- a pre-failure epoch: the step succeeds and the loop continues
      rcases hstep : epochStep cfg (saveOk s) (data s) s best with ⟨evs, best1, crashed, broke⟩
      have hflags := epochStep_flags cfg (data s) s best
      rw [← hps s hslt, hstep] at hflags
      have hcr : crashed = false := hflags.1
      have hbr2 : broke = (data s).trainLoss.isNaN := hflags.2
      have hbr : broke = false := by rw [hbr2, hpn s hslt]
      have hb1 : best1 = if best ≤ (data s).valAcc then (data s).valAcc else best := by
        have h := epochStep_best cfg (saveOk s) (data s) s best
        rw [hstep] at h
        exact h
      have hbf : bestFrom data (s + 1) (e - (s + 1)) best1 ≤ (data e).valAcc := by
        have hsplit : e - s = (e - (s + 1)) + 1 := by omega
        rw [hsplit, bestFrom, ← hb1] at hatt
        exact hatt
      rcases hrest : runLoop cfg saveOk data (s + 1) fuel best1 with ⟨rest, bfin, cr⟩
      have hrun : runLoop cfg saveOk data s (fuel + 1) best = (evs ++ rest, bfin, cr) := by
        rw [runLoop]
        simp [hstep, hcr, hbr, hrest]
      rw [hrun]
      have hih := ih (s + 1) best1 (by omega) (by omega) hbf
      rw [hrest] at hih
      refine ⟨hih.1, ?_, ?_⟩
      · intro b hmem
        rcases List.mem_append.mp hmem with h1 | h1
        · have hidx := epochStep_idx cfg (saveOk s) (data s) s best (Event.saveCkpt e b)
          rw [hstep] at hidx
          have hj2 := hidx h1
          simp only [Event.idx] at hj2
          omega
        · exact hih.2.1 b h1
      · intro j hj hmem
        rcases List.mem_append.mp hmem with h1 | h1
        · have hidx := epochStep_idx cfg (saveOk s) (data s) s best (Event.trainPass j)
          rw [hstep] at hidx
          have hj2 := hidx h1
          simp only [Event.idx] at hj2
          omega
        · exact hih.2.2 j hj h1

/-! ### Claim theorems -/

/-- C2: for every optimizer whose `step` invokes the closure `k i ≥ 1` times on
batch `i`, the loss/top-1/top-5 meters are updated exactly once per batch, with
the values computed on the first invocation — the resulting meters are
identical to those of a single-invocation pass, and each meter equals the fold
of one update per batch with the batch's first-invocation values — and the
mapping returned by `one_epoch` has exactly one entry per tracked metric name. -/
theorem one_epoch_metrics_once (k : ℕ → ℕ) (batches : List EpochBatch)
    (hk : ∀ i, 1 ≤ k i) :
    one_epoch (some k) batches = one_epoch none batches
    ∧ one_epoch (some k) batches =
      [("Time/BatchTotal",
        meterFold (fun b => b.batchTime) (fun _ => 1)
          (AverageMeter.mk0 "Time/BatchTotal" ":6.3f") batches),
       ("Time/BatchData",
        meterFold (fun b => b.dataTime) (fun _ => 1)
          (AverageMeter.mk0 "Time/BatchData" ":6.3f") batches),
       ("Loss",
        meterFold (fun b => b.lossAt 0) (fun b => (b.n : ℚ))
          (AverageMeter.mk0 "Loss" ":.4e") batches),
       ("Acc@1",
        meterFold (fun b => b.acc1) (fun b => (b.n : ℚ))
          (AverageMeter.mk0 "Acc@1" ":6.2f") batches),
       ("Acc@5",
        meterFold (fun b => b.acc5) (fun b => (b.n : ℚ))
          (AverageMeter.mk0 "Acc@5" ":6.2f") batches)]
    ∧ (one_epoch (some k) batches).map Prod.fst
        = ["Time/BatchTotal", "Time/BatchData", "Loss", "Acc@1", "Acc@5"]
    ∧ ((one_epoch (some k) batches).map Prod.fst).Nodup := by
  have h1 : one_epoch (some k) batches = one_epoch none batches :=
    one_epoch_eq_none (some k) (fun k0 hk0 => by cases hk0; exact hk) batches
  have h2 := h1.trans (one_epoch_none_eq batches)
  have h3 : (one_epoch (some k) batches).map Prod.fst
      = ["Time/BatchTotal", "Time/BatchData", "Loss", "Acc@1", "Acc@5"] := by
    rw [h2]; rfl
  exact ⟨h1, h2, h3, by rw [h3]; decide⟩

theorem one_epoch_metrics_once_witness :
    one_epoch (some fun _ => 3)
        [⟨2, fun j => if j = 0 then 3 else 7, 50, 90, 1, 2⟩]
      = one_epoch none [⟨2, fun j => if j = 0 then 3 else 7, 50, 90, 1, 2⟩] :=
  (one_epoch_metrics_once (fun _ => 3) _ (fun _ => by norm_num)).1

/-- C10: every recorded batch updates the loss/top-1/top-5 meters with weight
`inputs.size(0)` (the batch's number of examples, train.py lines 178-184), so
the pass's reported averages are per-example averages: the Loss, Acc@1 and
Acc@5 entries returned by `one_epoch` have count equal to the total number of
examples and average equal to the example-weighted sum divided by that count,
also when the final batch is smaller than the others. -/
theorem one_epoch_weighted_by_batch_size (optimizer : Option (ℕ → ℕ))
    (batches : List EpochBatch)
    (hk : ∀ k ∈ optimizer, ∀ i, 1 ≤ k i)
    (hn : (batches.map fun b => ((b.n : ℚ))).sum ≠ 0) :
    ∃ ml m1 m5 : AverageMeter,
      ("Loss", ml) ∈ one_epoch optimizer batches
      ∧ ("Acc@1", m1) ∈ one_epoch optimizer batches
      ∧ ("Acc@5", m5) ∈ one_epoch optimizer batches
      ∧ ml.count = (batches.map fun b => ((b.n : ℚ))).sum
      ∧ ml.sum = (batches.map fun b => b.lossAt 0 * (b.n : ℚ)).sum
      ∧ ml.avg = (batches.map fun b => b.lossAt 0 * (b.n : ℚ)).sum
          / (batches.map fun b => ((b.n : ℚ))).sum
      ∧ m1.count = (batches.map fun b => ((b.n : ℚ))).sum
      ∧ m1.sum = (batches.map fun b => b.acc1 * (b.n : ℚ)).sum
      ∧ m1.avg = (batches.map fun b => b.acc1 * (b.n : ℚ)).sum
          / (batches.map fun b => ((b.n : ℚ))).sum
      ∧ m5.count = (batches.map fun b => ((b.n : ℚ))).sum
      ∧ m5.sum = (batches.map fun b => b.acc5 * (b.n : ℚ)).sum
      ∧ m5.avg = (batches.map fun b => b.acc5 * (b.n : ℚ)).sum
          / (batches.map fun b => ((b.n : ℚ))).sum := by
  have he := (one_epoch_eq_none optimizer hk batches).trans (one_epoch_none_eq batches)
  obtain ⟨lc, ls, la⟩ :=
    meterFold_stats (fun b => b.lossAt 0) (fun b => ((b.n : ℚ))) "Loss" ":.4e" batches hn
  obtain ⟨c1, s1, a1⟩ :=
    meterFold_stats (fun b => b.acc1) (fun b => ((b.n : ℚ))) "Acc@1" ":6.2f" batches hn
  obtain ⟨c5, s5, a5⟩ :=
    meterFold_stats (fun b => b.acc5) (fun b => ((b.n : ℚ))) "Acc@5" ":6.2f" batches hn
  refine ⟨_, _, _, ?_, ?_, ?_, lc, ls, la, c1, s1, a1, c5, s5, a5⟩
  · rw [he]; simp
  · rw [he]; simp
  · rw [he]; simp

theorem one_epoch_weighted_by_batch_size_witness :
    ∃ ml m1 m5 : AverageMeter,
      ("Loss", ml) ∈ one_epoch (some fun _ => 2) [⟨2, fun _ => 3, 50, 90, 1, 2⟩]
      ∧ ("Acc@1", m1) ∈ one_epoch (some fun _ => 2) [⟨2, fun _ => 3, 50, 90, 1, 2⟩]
      ∧ ("Acc@5", m5) ∈ one_epoch (some fun _ => 2) [⟨2, fun _ => 3, 50, 90, 1, 2⟩]
      ∧ ml.count = (([⟨2, fun _ => 3, 50, 90, 1, 2⟩] : List EpochBatch).map
          fun b => ((b.n : ℚ))).sum
      ∧ ml.sum = (([⟨2, fun _ => 3, 50, 90, 1, 2⟩] : List EpochBatch).map
          fun b => b.lossAt 0 * (b.n : ℚ)).sum
      ∧ ml.avg = (([⟨2, fun _ => 3, 50, 90, 1, 2⟩] : List EpochBatch).map
            fun b => b.lossAt 0 * (b.n : ℚ)).sum
          / (([⟨2, fun _ => 3, 50, 90, 1, 2⟩] : List EpochBatch).map
            fun b => ((b.n : ℚ))).sum
      ∧ m1.count = (([⟨2, fun _ => 3, 50, 90, 1, 2⟩] : List EpochBatch).map
          fun b => ((b.n : ℚ))).sum
      ∧ m1.sum = (([⟨2, fun _ => 3, 50, 90, 1, 2⟩] : List EpochBatch).map
          fun b => b.acc1 * (b.n : ℚ)).sum
      ∧ m1.avg = (([⟨2, fun _ => 3, 50, 90, 1, 2⟩] : List EpochBatch).map
            fun b => b.acc1 * (b.n : ℚ)).sum
          / (([⟨2, fun _ => 3, 50, 90, 1, 2⟩] : List EpochBatch).map
            fun b => ((b.n : ℚ))).sum
      ∧ m5.count = (([⟨2, fun _ => 3, 50, 90, 1, 2⟩] : List EpochBatch).map
          fun b => ((b.n : ℚ))).sum
      ∧ m5.sum = (([⟨2, fun _ => 3, 50, 90, 1, 2⟩] : List EpochBatch).map
          fun b => b.acc5 * (b.n : ℚ)).sum
      ∧ m5.avg = (([⟨2, fun _ => 3, 50, 90, 1, 2⟩] : List EpochBatch).map
            fun b => b.acc5 * (b.n : ℚ)).sum
          / (([⟨2, fun _ => 3, 50, 90, 1, 2⟩] : List EpochBatch).map
            fun b => ((b.n : ℚ))).sum :=
  one_epoch_weighted_by_batch_size (some fun _ => 2) [⟨2, fun _ => 3, 50, 90, 1, 2⟩]
    (fun k0 hk0 => by cases hk0; intro i; norm_num) (by norm_num)

/-- C3: for every model output, target batch, and parameters with `ε' = 0` or
`factor = 0`, the loss returned by the per-batch loss computation equals the
plain cross-entropy base loss exactly — the guard `epsilon > 0 and factor > 0`
(train.py line 170) is false, so no robust term is computed or added, whatever
the criterion, temperature, and batch tensors are. -/
theorem compute_loss_no_robust (criterion : List Row → List ℕ → ℚ)
    (epsilon factor temperature : ℚ) (bt : BatchTensors)
    (h : epsilon = 0 ∨ factor = 0) :
    compute_loss criterion epsilon factor temperature bt
      = criterion bt.output bt.targets := by
  unfold compute_loss
  rcases h with h | h <;> subst h <;> simp

theorem compute_loss_no_robust_witness :
    compute_loss (fun out tgt => (out.map List.sum).sum + (tgt.length : ℚ)) 0 1 2
        ⟨[[1, 2]], [[3, 4]], [0]⟩
      = (([[1, 2]] : List Row).map List.sum).sum + (([0] : List ℕ).length : ℚ) :=
  compute_loss_no_robust _ 0 1 2 _ (Or.inl rfl)

/-- C4: whenever `ε' > 0` and `factor > 0`, the robust term divides the margin
logits row-wise by `temperature * max(|margin_logits|)` (train.py lines
173-174), and whenever an example's margin-logit row has at least one non-zero
entry, that divisor is non-zero (given `temperature > 0`), so the division
never divides by zero. -/
theorem compute_loss_divisor_nonzero (criterion : List Row → List ℕ → ℚ)
    (epsilon factor temperature : ℚ) (bt : BatchTensors)
    (hε : 0 < epsilon) (hf : 0 < factor) (ht : 0 < temperature) :
    compute_loss criterion epsilon factor temperature bt
      = criterion bt.output bt.targets
        + factor * criterion ((marginLogits bt).map (scaleRow temperature)) bt.targets
    ∧ ∀ r ∈ marginLogits bt, (∃ x ∈ r, x ≠ 0) →
        scaleRow temperature r = (r.map fun x => x / (temperature * maxAbs r))
        ∧ temperature * maxAbs r ≠ 0 := by
  refine ⟨?_, ?_⟩
  · unfold compute_loss
    simp [hε, hf]
  · rintro r _ ⟨x, hx, hx0⟩
    exact ⟨rfl, ne_of_gt (mul_pos ht (maxAbs_pos hx hx0))⟩

theorem compute_loss_divisor_nonzero_witness :
    (1 : ℚ) * maxAbs [1, 0] ≠ 0 :=
  ((compute_loss_divisor_nonzero (fun _ _ => 0) 1 1 1 ⟨[[1, 0]], [[0, 0]], [0]⟩
      (by norm_num) (by norm_num) (by norm_num)).2 [1, 0]
    (by norm_num [marginLogits, bounds_logits, bounds_logits_go])
    ⟨1, by norm_num, by norm_num⟩).2

/-- C6: a checkpoint saved at the end of epoch `e` with best metric `b` stores
epoch `e + 1` (train.py line 138); resuming from it restores the model
parameter dictionary and optimizer state, starts at epoch `e + 1`, and
preserves `best_acc1 = b` (train.py lines 74-81).  The saved `state_dict` zips
the captured `keys` with the current parameter values, so the parameters are
reproduced exactly when the live model's parameter names equal `keys`. -/
theorem checkpoint_roundtrip {P O : Type} (p : String) (keys : List String)
    (net_sd : List (String × P)) (opt_sd : O) (e : ℕ) (b : ℚ)
    (fresh_sd : List (String × P)) (fresh_opt : O)
    (hkeys : net_sd.map Prod.fst = keys) :
    resume_init (some p)
        (fun q => if q = p then some (save_checkpoint keys net_sd e b opt_sd) else none)
        fresh_sd fresh_opt
      = ⟨e + 1, b, net_sd, opt_sd,
         ["=> loading checkpoint", "=> loaded checkpoint"]⟩ := by
  subst hkeys
  unfold resume_init save_checkpoint
  simp [zip_fst_snd]

theorem checkpoint_roundtrip_witness :
    resume_init (some "ckpt.pth")
        (fun q => if q = "ckpt.pth"
          then some (save_checkpoint ["w", "b"] [("w", (3 : ℤ)), ("b", 4)] 7 (95 / 2) (11 : ℤ))
          else none)
        [("w", (0 : ℤ)), ("b", 0)] (0 : ℤ)
      = ⟨8, 95 / 2, [("w", (3 : ℤ)), ("b", 4)], (11 : ℤ),
         ["=> loading checkpoint", "=> loaded checkpoint"]⟩ :=
  checkpoint_roundtrip "ckpt.pth" ["w", "b"] [("w", (3 : ℤ)), ("b", 4)] (11 : ℤ) 7
    (95 / 2) [("w", (0 : ℤ)), ("b", 0)] (0 : ℤ) (by decide)

/-- C7: in a run started from epoch 0, the learning rate written into the
optimizer during epoch `e` equals `base_lr * 0.1 ^ (e / 30)` — in particular
exactly `base_lr` for `e < 30` and `base_lr * 0.1` for `30 ≤ e < 60` — because
the loop reassigns `lr = get_lr(epoch)` at every epoch that is a multiple of
30 (train.py lines 28 and 104-110) and keeps it unchanged otherwise. -/
theorem lr_step_decay (learning_rate : ℚ) (e : ℕ) :
    optimizer_lr learning_rate e = learning_rate * (1 / 10) ^ (e / 30)
    ∧ optimizer_lr learning_rate e = get_lr learning_rate e
    ∧ (e < 30 → optimizer_lr learning_rate e = learning_rate)
    ∧ (30 ≤ e → e < 60 → optimizer_lr learning_rate e = learning_rate * (1 / 10)) := by
  have key : ∀ n, optimizer_lr learning_rate n = learning_rate * (1 / 10) ^ (n / 30) := by
    intro n
    induction n with
    | zero => rfl
    | succ m ih =>
      rw [optimizer_lr]
      split_ifs with h
      · rfl
      · rw [ih]
        have h30 : (m + 1) / 30 = m / 30 := by omega
        rw [h30]
  refine ⟨key e, (key e).trans rfl, fun h => ?_, fun h1 h2 => ?_⟩
  · rw [key e]
    have h0 : e / 30 = 0 := by omega
    rw [h0, pow_zero, mul_one]
  · rw [key e]
    have h1' : e / 30 = 1 := by omega
    rw [h1', pow_one]

theorem lr_step_decay_witness :
    optimizer_lr (2 : ℚ) 29 = 2 ∧ optimizer_lr (2 : ℚ) 45 = 2 * (1 / 10) :=
  ⟨(lr_step_decay 2 29).2.2.1 (by norm_num),
   (lr_step_decay 2 45).2.2.2 (by norm_num) (by norm_num)⟩

/-- C9: when a resume path is explicitly requested but no file exists at it,
the resume block prints a console message and continues non-fatally: training
starts fresh with start epoch 0 and best metric 0, and the freshly constructed
model and optimizer states are left untouched (train.py lines 72-83). -/
theorem resume_missing_file {P O : Type} (p : String)
    (fs : String → Option (CheckpointState P O))
    (net_sd : List (String × P)) (opt_sd : O) (hfs : fs p = none) :
    resume_init (some p) fs net_sd opt_sd
      = ⟨0, 0, net_sd, opt_sd, ["=> no checkpoint found"]⟩ := by
  simp only [resume_init]
  rw [hfs]

theorem resume_missing_file_witness :
    resume_init (some "missing.pth") (fun _ => (none : Option (CheckpointState ℤ ℤ)))
        [("w", (5 : ℤ))] (9 : ℤ)
      = ⟨0, 0, [("w", (5 : ℤ))], (9 : ℤ), ["=> no checkpoint found"]⟩ :=
  resume_missing_file "missing.pth" _ _ _ rfl

/-- C1 (counterexample): with a NaN training-pass loss at epoch 0, a checkpoint
path configured and validation accuracy 50, the run's trace still contains the
epoch-0 validation pass and the epoch-0 checkpoint save: the claim that the
validation pass of the NaN epoch is skipped (abort directly after the training
pass, before validation, logging, or checkpoint saving) is false — the source
checks `train_loss != train_loss` only at the end of the epoch body (train.py
line 144). -/
theorem nan_validation_not_skipped_cex :
    EVal.nan.isNaN = true
    ∧ Event.valPass 0 ∈ (train_run ⟨false, true⟩ (fun _ => true)
        (fun _ => ⟨EVal.nan, 50⟩) 2 0 0).1
    ∧ Event.saveCkpt 0 50 ∈ (train_run ⟨false, true⟩ (fun _ => true)
        (fun _ => ⟨EVal.nan, 50⟩) 2 0 0).1 := by
  decide

/-- C1 (amended): when the first epoch `e` whose training-pass average loss is
NaN occurs, the orchestrator reports the divergence (the NaN-abort report is in
the trace) and processes no further epochs (no training pass with a later epoch
index appears); but the abort happens at the END of the epoch body, after the
validation pass of that same epoch (which is therefore in the trace), not
before it. -/
theorem nan_aborts_run_after_validation (cfg : OrchConfig) (saveOk : ℕ → Bool)
    (data : ℕ → EpochData) (epochs e : ℕ)
    (hnan : (data e).trainLoss.isNaN = true)
    (hclean : ∀ j < e, (data j).trainLoss.isNaN = false)
    (hsave : ∀ j, saveOk j = true) (he : e < epochs) :
    Event.nanAbort e ∈ (train_run cfg saveOk data epochs 0 0).1
    ∧ Event.valPass e ∈ (train_run cfg saveOk data epochs 0 0).1
    ∧ ∀ j, e < j → Event.trainPass j ∉ (train_run cfg saveOk data epochs 0 0).1 := by
  unfold train_run
  exact runLoop_nan cfg saveOk data hsave e hnan (epochs - 0) 0 0 (by omega) (by omega)
    (fun j _ h2 => hclean j h2)

theorem nan_aborts_run_after_validation_witness :
    Event.trainPass 2 ∉ (train_run ⟨false, false⟩ (fun _ => true)
        (fun j => if j = 1 then ⟨EVal.nan, 40⟩ else ⟨EVal.val 1, 60⟩) 3 0 0).1 :=
  (nan_aborts_run_after_validation ⟨false, false⟩ (fun _ => true)
      (fun j => if j = 1 then ⟨EVal.nan, 40⟩ else ⟨EVal.val 1, 60⟩) 3 1
      rfl (by intro j hj; have hj0 : j = 0 := (by omega); subst hj0; rfl)
      (fun _ => rfl) (by norm_num)).2.2 2 (by norm_num)

/-- C5: exactly one best-metric value exists at any time (the loop state holds
a single `best_acc1` rational) and it is monotonically non-decreasing: each
epoch step can only raise it, the run-level best never drops below its initial
value, and the `bestFrom` sequence of per-epoch bests is monotone (and is what
a clean run computes).  A checkpoint is written in an epoch iff a checkpoint
path is configured and the epoch's validation top-1 average is `≥` the best
metric so far; on a tie the newer checkpoint is written and the best metric is
set to the new value (train.py lines 132-142). -/
theorem best_metric_invariant (cfg : OrchConfig) (d : EpochData) (e : ℕ) (best : ℚ)
    (saveOk : ℕ → Bool) (data : ℕ → EpochData) :
    best ≤ (epochStep cfg true d e best).2.1
    ∧ (best ≤ d.valAcc → (epochStep cfg true d e best).2.1 = d.valAcc)
    ∧ (¬best ≤ d.valAcc → (epochStep cfg true d e best).2.1 = best)
    ∧ ((∃ b, Event.saveCkpt e b ∈ (epochStep cfg true d e best).1)
        ↔ cfg.ckptPath = true ∧ best ≤ d.valAcc)
    ∧ (cfg.ckptPath = true → best ≤ d.valAcc →
        Event.saveCkpt e d.valAcc ∈ (epochStep cfg true d e best).1)
    ∧ (∀ (s fuel : ℕ) (best0 : ℚ), best0 ≤ (runLoop cfg saveOk data s fuel best0).2.1)
    ∧ (∀ (s fuel : ℕ) (best0 : ℚ),
        bestFrom data s fuel best0 ≤ bestFrom data s (fuel + 1) best0)
    ∧ ((∀ j, (data j).trainLoss.isNaN = false) → (∀ j, saveOk j = true) →
        ∀ (s fuel : ℕ) (best0 : ℚ),
          (runLoop cfg saveOk data s fuel best0).2.1 = bestFrom data s fuel best0) := by
  have hbest := epochStep_best cfg true d e best
  refine ⟨?_, ?_, ?_, epochStep_save_iff cfg d e best,
    fun hck hb => epochStep_save_mem cfg d e best hck hb,
    fun s fuel best0 => runLoop_best_mono cfg saveOk data fuel s best0,
    fun s fuel best0 => bestFrom_mono data fuel s best0,
    fun hnan hsave s fuel best0 => runLoop_best_track cfg saveOk data hnan hsave fuel s best0⟩
  · rw [hbest]
    split_ifs with h
    · exact h
    · exact le_refl _
  · intro h
    rw [hbest, if_pos h]
  · intro h
    rw [hbest, if_neg h]

theorem best_metric_invariant_witness :
    (epochStep ⟨false, true⟩ true ⟨EVal.val 1, 50⟩ 0 0).2.1 = 50 :=
  (best_metric_invariant ⟨false, true⟩ ⟨EVal.val 1, 50⟩ 0 0 (fun _ => true)
      (fun _ => ⟨EVal.val 1, 50⟩)).2.1 (by norm_num)

/-- C8 (counterexample): with a checkpoint path configured and an unwritable
target (every save fails), no NaN anywhere and an epoch budget of 2, the run
crashes during epoch 0 and epoch 1 is never trained: the claim that a failing
save is reported and training continues is false — `torch.save` (train.py
lines 137-142) is wrapped in no exception handler. -/
theorem save_failure_cex :
    (train_run ⟨false, true⟩ (fun _ => false) (fun _ => ⟨EVal.val 1, 50⟩) 2 0 0).2.2 = true
    ∧ Event.trainPass 1 ∉ (train_run ⟨false, true⟩ (fun _ => false)
        (fun _ => ⟨EVal.val 1, 50⟩) 2 0 0).1 := by
  decide

/-- C8 (amended): when a checkpoint save is attempted to an unwritable path at
epoch `e` (checkpoint path configured, the epoch's validation metric reaches
the best so far, the save fails), the error propagates uncaught: the run
crashes, nothing is persisted for that epoch, and no later epoch is trained. -/
theorem save_failure_crashes_run (cfg : OrchConfig) (saveOk : ℕ → Bool)
    (data : ℕ → EpochData) (epochs e : ℕ) (best0 : ℚ)
    (hck : cfg.ckptPath = true) (hse : saveOk e = false)
    (hps : ∀ j < e, saveOk j = true) (hpn : ∀ j < e, (data j).trainLoss.isNaN = false)
    (he : e < epochs) (hatt : bestFrom data 0 e best0 ≤ (data e).valAcc) :
    (train_run cfg saveOk data epochs 0 best0).2.2 = true
    ∧ (∀ b, Event.saveCkpt e b ∉ (train_run cfg saveOk data epochs 0 best0).1)
    ∧ ∀ j, e < j → Event.trainPass j ∉ (train_run cfg saveOk data epochs 0 best0).1 := by
  unfold train_run
  exact runLoop_save_crash cfg saveOk data e hck hse hps hpn (epochs - 0) 0 best0
    (by omega) (by omega) (by simpa using hatt)

theorem save_failure_crashes_run_witness :
    (train_run ⟨true, true⟩ (fun _ => false) (fun _ => ⟨EVal.val 1, 50⟩) 2 0 0).2.2 = true :=
  (save_failure_crashes_run ⟨true, true⟩ (fun _ => false) (fun _ => ⟨EVal.val 1, 50⟩)
      2 0 0 rfl rfl (fun j hj => absurd hj (by omega))
      (fun j hj => absurd hj (by omega)) (by norm_num) (by norm_num [bestFrom])).1

end Ptb
